import Mathlib

set_option maxRecDepth 8000

/-! Shallow embedding of the BookSuggester recommendation pipeline.

The repository has two server variants:
* the nested-body variant (the second file of src/unnamed/part_000): the request
  body carries a `profile` object, `exclude_titles`, `max_results_per_category`
  and `seed` at body level; the gateway injects a `metadata` object into the
  parsed model output and the handler validates it with `validateSchema`;
* the flat-body variant (src/backend/server.js): profile fields may sit at the
  top level of the body (`req.body.profile || req.body`), parameters arrive in
  the query string (`max`, `exclude`, `seed`), and the live gateway strips
  Markdown code fencing before `JSON.parse`.

Strings are modelled as lists of characters (`JSString`).  JavaScript values
reaching the handlers are modelled by the inductive `JsonVal`; numbers are
modelled as integers (the integral fragment is the only one the claims touch;
floating-point behaviour is out of scope).  `JSON.parse` is the platform
parser, not repository code: the gateways receive it as an explicit function
parameter `parse : JSString → Option JsonVal`, where `none` models the parser
throwing a `SyntaxError`. -/

abbrev JSString := List Char

/-- The apostrophe character (U+0027), used in some mock strings. -/
def apos : Char := Char.ofNat 39

/-- The backtick character (U+0060), the Markdown fence delimiter. -/
def tick : Char := Char.ofNat 96

/-- C0 and C1 control characters: the ranges removed by `sanitizeText`
(the regular expression `/[\u0000-\u001f\u007f-\u009f]/g` in both variants). -/
def isCtrlChar (c : Char) : Bool :=
  c.toNat ≤ 0x1f || (0x7f ≤ c.toNat && c.toNat ≤ 0x9f)

/-- `String.prototype.replace(/[\u0000-\u001f\u007f-\u009f]/g, '')`. -/
def stripCtrl (s : JSString) : JSString := s.filter (fun c => !isCtrlChar c)

/-- JavaScript whitespace in the ASCII range (what `trim` removes on the
strings this program manipulates; exotic Unicode whitespace never occurs). -/
def isJsWs (c : Char) : Bool :=
  c = ' ' || c = '\t' || c = '\n' || c = '\r' || c = Char.ofNat 11 || c = Char.ofNat 12

/-- JavaScript values as they occur in request bodies and parsed JSON.
`num` is restricted to integers (see the header comment). -/
inductive JsonVal where
  | null
  | bool (b : Bool)
  | num (n : Int)
  | str (s : JSString)
  | arr (elements : List JsonVal)
  | obj (fields : List (JSString × JsonVal))

/-- First binding of a key in an association list (JS object property read). -/
def lookupF : List (JSString × JsonVal) → JSString → Option JsonVal
  | [], _ => none
  | (k, v) :: fs, key => if k = key then some v else lookupF fs key

/-- Property read `v[key]`; `none` models `undefined` (also for reads on
primitives, whose only own properties are irrelevant here). -/
def getField : JsonVal → JSString → Option JsonVal
  | .obj fs, key => lookupF fs key
  | _, _ => none

/-- Property write on an object: replaces the first binding in place, or
appends a new one (JS property-order semantics). -/
def setField : List (JSString × JsonVal) → JSString → JsonVal → List (JSString × JsonVal)
  | [], key, v => [(key, v)]
  | (k, w) :: fs, key, v => if k = key then (key, v) :: fs else (k, w) :: setField fs key v

/-- Index access `v[0]`: first element for arrays, property "0" otherwise. -/
def idx0 : JsonVal → Option JsonVal
  | .arr xs => xs.head?
  | v => getField v ("0".data)

/-- JavaScript truthiness. -/
def truthy : JsonVal → Bool
  | .null => false
  | .bool b => b
  | .num n => n != 0
  | .str s => !s.isEmpty
  | .arr _ => true
  | .obj _ => true

/-- A `!x`-guarded value: `none` when the value is absent or falsy. -/
def truthyOpt (o : Option JsonVal) : Option JsonVal :=
  o.bind (fun v => if truthy v then some v else none)

/-- Truthiness of a property (`!v.key` is `!truthyField v key`). -/
def truthyField (v : JsonVal) (key : JSString) : Bool :=
  match getField v key with
  | some w => truthy w
  | none => false

/-- `Array.prototype.join` separator fold. -/
def joinSep (sep : JSString) : List JSString → JSString
  | [] => []
  | [x] => x
  | x :: xs => x ++ sep ++ joinSep sep xs

/-- Stringification of an array element inside `join` (`null`/`undefined`
render as the empty string).  Nested arrays are approximated by the empty
string; no profile in the claims' scope nests arrays. -/
def jsElemStr : JsonVal → JSString
  | .null => []
  | .bool true => "true".data
  | .bool false => "false".data
  | .num n => (toString n).data
  | .str s => s
  | .arr _ => []
  | .obj _ => "[object Object]".data

/-- The `String(v)` coercion used by `sanitizeText` and template literals. -/
def jsStringOf : JsonVal → JSString
  | .null => "null".data
  | .bool true => "true".data
  | .bool false => "false".data
  | .num n => (toString n).data
  | .str s => s
  | .arr xs => joinSep (",".data) (xs.map jsElemStr)
  | .obj _ => "[object Object]".data

/-- sanitizeText from both variants:
`if(!s) return s; return String(s).replace(/[\u0000-\u001f\u007f-\u009f]/g, '');` -/
def sanitizeText (v : JsonVal) : JsonVal :=
  if truthy v then .str (stripCtrl (jsStringOf v)) else v

/-- The seven string-bearing array fields sanitized by the nested-body
handler. -/
def arrayProfileKeys : List JSString :=
  [("favorite_video_games".data), ("favorite_board_games".data), ("movie_genres".data),
   ("interests".data), ("accessibility_needs".data), ("favorite_authors".data),
   ("disliked_themes".data)]

/-- One step of the nested handler's sanitization loop:
`if(Array.isArray(profile[k])) profile[k] = profile[k].map(sanitizeText);` -/
def sanitizeArrayField (p : JsonVal) (key : JSString) : JsonVal :=
  match p with
  | .obj fs =>
    match lookupF fs key with
    | some (.arr xs) => .obj (setField fs key (.arr (xs.map sanitizeText)))
    | _ => p
  | _ => p

/-- The nested handler's whole sanitization pass over the profile. -/
def sanitizeProfileNested (p : JsonVal) : JsonVal :=
  arrayProfileKeys.foldl sanitizeArrayField p

/-- The flat handler's per-property step: `typeof profile[key] === 'string'`
guards the call to `sanitizeText`. -/
def sanitizeStrVal (v : JsonVal) : JsonVal :=
  match v with
  | .str s => sanitizeText (.str s)
  | w => w

/-- The flat handler's sanitization pass:
`Object.keys(profile).forEach(key => { if (typeof profile[key] === 'string') ... })` -/
def sanitizeProfileFlat (p : JsonVal) : JsonVal :=
  match p with
  | .obj fs => .obj (fs.map (fun kv => (kv.1, sanitizeStrVal kv.2)))
  | v => v

/-- `Array.isArray(body.exclude_titles) ? body.exclude_titles.map(sanitizeText) : []`
in the nested handler. -/
def excludeTitlesNested (body : JsonVal) : List JsonVal :=
  match getField body ("exclude_titles".data) with
  | some (.arr xs) => xs.map sanitizeText
  | _ => []

/-- A JavaScript number that is either NaN or an integer. -/
inductive JsNum where
  | nan
  | int (n : Int)
deriving DecidableEq

/-- Value of a non-empty all-digit string (helper for `Number` coercion). -/
def allDigitsVal (s : List Char) : Option Nat :=
  if !s.isEmpty && s.all (fun c => c.isDigit) then
    some (s.foldl (fun a c => 10 * a + (c.toNat - 48)) 0)
  else none

/-- Value of a leading digit run (helper for `parseInt`). -/
def leadDigitsVal (s : List Char) : Option Nat :=
  let ds := s.takeWhile (fun c => c.isDigit)
  if ds.isEmpty then none
  else some (ds.foldl (fun a c => 10 * a + (c.toNat - 48)) 0)

def trimCharsPre (s : List Char) : List Char := s.dropWhile isJsWs

/-- `String.prototype.trim`. -/
def trimChars (s : List Char) : List Char :=
  ((trimCharsPre s).reverse.dropWhile isJsWs).reverse

/-- `parseInt(s)` (base 10): skip whitespace, optional sign, leading digit
run; no digits means NaN.  Non-decimal prefixes (hex) do not occur here. -/
def parseIntJS (s : JSString) : JsNum :=
  match trimCharsPre s with
  | '-' :: r => match leadDigitsVal r with
    | some n => .int (-(n : Int))
    | none => .nan
  | '+' :: r => match leadDigitsVal r with
    | some n => .int (n : Int)
    | none => .nan
  | r => match leadDigitsVal r with
    | some n => .int (n : Int)
    | none => .nan

/-- `Number(s)` on a string: whole trimmed string must be numeric; empty
string is 0.  Fractional/exponent/hex literals, which coerce to non-integral
values, are outside the modelled integer fragment and mapped to NaN. -/
def strToNumJS (s : JSString) : JsNum :=
  let t := trimChars s
  if t.isEmpty then .int 0
  else match t with
    | '-' :: r => match allDigitsVal r with
      | some n => .int (-(n : Int))
      | none => .nan
    | '+' :: r => match allDigitsVal r with
      | some n => .int (n : Int)
      | none => .nan
    | _ => match allDigitsVal t with
      | some n => .int (n : Int)
      | none => .nan

/-- `Number(v)` on a single-element array goes through its element's string
form; deeper nesting is approximated as NaN (never occurs in scope). -/
def jsNumberInner : JsonVal → JsNum
  | .null => .int 0
  | .num n => .int n
  | .str s => strToNumJS s
  | _ => .nan

/-- The `Number(v)` coercion. -/
def jsNumberOfVal : JsonVal → JsNum
  | .null => .int 0
  | .bool true => .int 1
  | .bool false => .int 0
  | .num n => .int n
  | .str s => strToNumJS s
  | .arr [] => .int 0
  | .arr [x] => jsNumberInner x
  | .arr _ => .nan
  | .obj _ => .nan

/-- `x || 5` on a JS number: NaN and 0 are falsy. -/
def numOr5 : JsNum → Int
  | .nan => 5
  | .int n => if n = 0 then 5 else n

/-- Nested handler: `const maxPerCategory = Number(body.max_results_per_category) || 5;`
(`Number(undefined)` is NaN). -/
def maxPerCategoryNested (body : JsonVal) : Int :=
  numOr5 (match getField body ("max_results_per_category".data) with
          | none => .nan
          | some v => jsNumberOfVal v)

/-- Flat handler: `Math.min(parseInt(req.query.max || '3'), 5)`; query
parameters are strings, an absent or empty parameter defaults to '3',
`Math.min(NaN, 5)` is NaN. -/
def maxPerCategoryFlat (qmax : Option JSString) : JsNum :=
  let s := match qmax with
    | none => "3".data
    | some q => if q.isEmpty then "3".data else q
  match parseIntJS s with
  | .nan => .nan
  | .int n => .int (min n 5)

/-- `x || d` on a string: the empty string is falsy. -/
def orStr (s d : JSString) : JSString := if s.isEmpty then d else s

def intStr (n : Int) : JSString := (toString n).data

def natStr (n : Nat) : JSString := (toString n).data

/-- Profile fields read by the nested variant's mock generator
(`profile.interests`, `profile.age`, `profile.minutes_per_week`).  `age` is an
integer per the claims' "numeric age" hypothesis; an absent or zero
`minutes_per_week` is distinguished because `profile.minutes_per_week||60`
treats both as 60. -/
structure MockProfile where
  interests : List JSString
  age : Int
  minutes_per_week : Option Nat
deriving DecidableEq

/-- One entry produced by the nested mock's `make` closure.  The constant
`confidence: 0.85` is a floating-point literal and is not modelled; every
other field is. -/
structure MockEntry where
  title : JSString
  author : JSString
  year : Int
  isbn : Option JSString
  cover_url : Option JSString
  short_description : JSString
  age_range : JSString
  why_recommended : JSString
  tags : List JSString
  reading_time_minutes : Nat
deriving DecidableEq

/-- The nested mock's `make(title, tags, fiction)` closure.  `Math.round(mw/5)`
on a natural number mw is `⌊mw/5 + 1/2⌋ = (2*mw+5)/10` (the fractional part of
mw/5 is one of 0, .2, .4, .6, .8, so binary-float rounding agrees with the
exact value). -/
def mkMockEntry (profile : MockProfile) (title : JSString) (tags : List JSString)
    (fiction : Bool) : MockEntry :=
  let mw : Nat := match profile.minutes_per_week with
    | none => 60
    | some 0 => 60
    | some m => m
  { title := title
    author := "A. Writer".data
    year := 2020
    isbn := none
    cover_url := none
    short_description :=
      (title ++ " is a fun ".data ++ (if fiction then "story".data else "book".data)
        ++ " about ".data
        ++ orStr (joinSep (" and ".data) (profile.interests.take 2)) ("adventure".data)
        ++ ['.']).take 250
    age_range := intStr (max 4 (profile.age - 2)) ++ '-' :: intStr (profile.age + 3)
    why_recommended :=
      "Matches interests: ".data
        ++ orStr (joinSep (", ".data) (profile.interests.take 3)) ("general fun".data)
        ++ ['.']
    tags := tags
    reading_time_minutes := max 10 ((2 * mw + 5) / 10) }

structure MockMeta where
  request_id : JSString
  model : JSString
  timestamp : JSString
deriving DecidableEq

structure MockResults where
  fiction : List MockEntry
  nonfiction : List MockEntry
deriving DecidableEq

structure MockResponse where
  metadata : MockMeta
  results : MockResults
  warnings : List JSString
  excluded_titles : List JSString
deriving DecidableEq

/-- The nested variant's `mockLLMResponse(profile, prompt)`.  The loop bound is
`Math.min(5, (prompt.maxPerCategory||5))`; `reqId` and `ts` stand for the
runtime-generated `uuidv4()` and `new Date().toISOString()`. -/
def mockLLMResponse (profile : MockProfile) (maxPerCategory : Int)
    (reqId ts : JSString) : MockResponse :=
  let count : Nat := (min 5 (if maxPerCategory = 0 then 5 else maxPerCategory)).toNat
  { metadata := { request_id := reqId, model := "gemini-2.5-flash".data, timestamp := ts }
    results :=
      { fiction := (List.range count).map (fun i =>
          mkMockEntry profile ("Fun Story ".data ++ natStr (i + 1))
            [("adventure".data), ("friendship".data)] true)
        nonfiction := (List.range count).map (fun i =>
          mkMockEntry profile ("Real Facts ".data ++ natStr (i + 1))
            [("science".data), ("learning".data)] false) }
    warnings := []
    excluded_titles := [] }

/-- One entry of the flat variant's hard-coded mock lists. -/
structure FlatEntry where
  title : JSString
  author : JSString
  year : Int
  isbn : JSString
  cover_url : JSString
  short_description : JSString
  age_range : JSString
  why_recommended : JSString
  tags : List JSString
  content_warnings : Option (List JSString)
deriving DecidableEq

/-- `xs.slice(0, stop)` (a negative stop counts from the end). -/
def jsSlice {α : Type} (xs : List α) (stop : Int) : List α :=
  if 0 ≤ stop then xs.take stop.toNat
  else xs.take (((xs.length : Int) + stop).toNat)

/-- Template-literal rendering of a possibly-undefined value
(`String(undefined)` is "undefined"). -/
def jsTemplateOpt : Option JsonVal → JSString
  | none => "undefined".data
  | some v => jsStringOf v

def flatFictionEntry (nameVal : Option JsonVal) : FlatEntry :=
  { title := "The Dragon".data ++ apos :: "s Secret".data
    author := "Maria Swift".data
    year := 2023
    isbn := "978-1234567890".data
    cover_url := "https://via.placeholder.com/200x300".data
    short_description := ("A young wizard discovers a friendly dragon hiding in the school "
      ++ "library, leading to an adventure about friendship and courage.").data
    age_range := "8-12".data
    why_recommended := "Based on ".data ++ jsTemplateOpt nameVal
      ++ apos :: "s interest in fantasy games and love of adventure stories.".data
    tags := [("fantasy".data), ("friendship".data), ("adventure".data), ("dragons".data)]
    content_warnings := some [("mild peril".data)] }

def flatNonfictionEntry (nameVal : Option JsonVal) : FlatEntry :=
  { title := "Amazing Science Experiments at Home".data
    author := "Dr. Sarah Smart".data
    year := 2024
    isbn := "978-0987654321".data
    cover_url := "https://via.placeholder.com/200x300".data
    short_description := ("A collection of safe and fun science experiments that can be "
      ++ "done with everyday household items.").data
    age_range := "7-13".data
    why_recommended := "Perfect for ".data ++ jsTemplateOpt nameVal
      ++ apos :: "s interest in science and hands-on activities.".data
    tags := [("science".data), ("experiments".data), ("education".data), ("STEM".data)]
    content_warnings := none }

structure FlatMockResults where
  fiction : List FlatEntry
  nonfiction : List FlatEntry
deriving DecidableEq

/-- The flat variant's `mockLLMResponse(profile, maxPerCategory)`: each
category list holds exactly one hard-coded entry and is sliced to
`maxPerCategory`. -/
def mockLLMResponseFlat (profile : JsonVal) (maxPerCategory : Int) : FlatMockResults :=
  { fiction := jsSlice [flatFictionEntry (getField profile ("name".data))] maxPerCategory
    nonfiction := jsSlice [flatNonfictionEntry (getField profile ("name".data))] maxPerCategory }

/-- Boolean prefix test on character lists (the anchored part of
`String.prototype.includes` / `split`). -/
def seqPrefixOf : List Char → List Char → Bool
  | [], _ => true
  | _ :: _, [] => false
  | a :: as, b :: bs => if a = b then seqPrefixOf as bs else false

/-- Substring occurrence test: `s.includes(sep)` is `containsSeq sep s`. -/
def containsSeq (sep : List Char) : List Char → Bool
  | [] => sep.isEmpty
  | c :: rest => seqPrefixOf sep (c :: rest) || containsSeq sep rest

/-- Fueled worker for `String.prototype.split`: leftmost, non-overlapping
occurrences.  The fuel is an upper bound on the remaining length (never
exhausted when started at the string's length; the `0, s` row is dead code
needed for structural recursion). -/
def splitGo (sep : List Char) : Nat → List Char → List (List Char)
  | _, [] => [[]]
  | 0, s => [s]
  | fuel + 1, c :: rest =>
    if sep.isEmpty then [c :: rest]
    else if seqPrefixOf sep (c :: rest) then
      [] :: splitGo sep fuel (List.drop sep.length (c :: rest))
    else
      match splitGo sep fuel rest with
      | [] => [[c]]
      | t :: ts => (c :: t) :: ts

/-- `s.split(sep)` for a non-empty separator. -/
def splitSeq (sep s : List Char) : List (List Char) := splitGo sep s.length s

/-- The three-backtick fence delimiter. -/
def fence : List Char := [tick, tick, tick]

/-- The fence delimiter with a json language tag: the seven characters of
the string backtick-backtick-backtick-j-s-o-n. -/
def fenceJson : List Char := [tick, tick, tick, 'j', 's', 'o', 'n']

/-- The flat variant's pre-parse normalization (callGemini, server.js):

    if (text.includes('```json'))      jsonStr = text.split('```json')[1].split('```')[0].trim();
    else if (text.includes('```'))     jsonStr = text.split('```')[1].split('```')[0].trim();
    else                               jsonStr = text;

`[1]` and `[0]` are total here because the guards ensure the splits have the
indexed elements; `getD` with an empty default models the same accesses. -/
def extractJson (text : JSString) : JSString :=
  if containsSeq fenceJson text then
    trimChars ((splitSeq fence ((splitSeq fenceJson text).getD 1 [])).getD 0 [])
  else if containsSeq fence text then
    trimChars ((splitSeq fence ((splitSeq fence text).getD 1 [])).getD 0 [])
  else text

/-- Error conditions raised inside the live gateways.  The tags correspond to
the thrown messages: `invalidResponse` to "Invalid response from Gemini
(API)", `noTextContent` to "No text content in Gemini response",
`notAString` to the TypeError from calling `includes` on a non-string, and
`parseFailure` to the parse/TypeError wrap ("Invalid JSON response from
Gemini" / "Failed to parse Gemini response as JSON: ..."). -/
inductive GatewayError where
  | invalidResponse
  | noTextContent
  | notAString
  | parseFailure
deriving DecidableEq

/-- The metadata object the nested gateway assigns into the parsed output
(`request_id: uuidv4(), model: 'gemini-pro', timestamp: new Date().toISOString()`);
the two runtime-generated strings are parameters. -/
def metaObj (reqId ts : JSString) : JsonVal :=
  .obj [(("request_id".data), .str reqId), (("model".data), .str ("gemini-pro".data)),
        (("timestamp".data), .str ts)]

/-- `json.metadata = {...}` on the parsed value: assigning a property of
`null` throws a TypeError (caught by the surrounding catch); sloppy-mode
assignment on other primitives is a silent no-op.  On an array the property
is set but is never observed (`validateSchema` then fails on `results`
either way), so the array is modelled unchanged. -/
def addMetadata (meta : JsonVal) : JsonVal → Option JsonVal
  | .null => none
  | .obj fs => some (.obj (setField fs ("metadata".data) meta))
  | v => some v

/-- `resp.data.candidates[0].content.parts[0].text` from the first candidate
(the unguarded access chain of the nested gateway; `none` models the
TypeError thrown partway, which the surrounding catch converts into the
parse-failure wrap). -/
def candTextChain (c : JsonVal) : Option JsonVal :=
  ((((getField c ("content".data)).bind (fun ct => getField ct ("parts".data))).bind
    idx0).bind (fun p => getField p ("text".data)))

/-- The guard `if(!resp.data || !resp.data.candidates || !resp.data.candidates[0])`
shared by both gateways: the first candidate, or `none` when any step of the
chain is absent or falsy. -/
def firstCandidate (data? : Option JsonVal) : Option JsonVal :=
  truthyOpt ((truthyOpt ((truthyOpt data?).bind
    (fun v => getField v ("candidates".data)))).bind idx0)

/-- Outcome of `addMetadata` inside the nested gateway's try block. -/
def nestedMetaStage : Option JsonVal → Except GatewayError JsonVal
  | none => .error .parseFailure
  | some j2 => .ok j2

/-- Outcome of `JSON.parse(text)` inside the nested gateway's try block. -/
def nestedParsedStage (reqId ts : JSString) : Option JsonVal → Except GatewayError JsonVal
  | none => .error .parseFailure
  | some j => nestedMetaStage (addMetadata (metaObj reqId ts) j)

/-- The nested gateway's try block on the extracted candidate text: a
non-string or missing text raises a TypeError which the catch rewraps. -/
def nestedTextStage (parse : JSString → Option JsonVal) (reqId ts : JSString) :
    Option JsonVal → Except GatewayError JsonVal
  | some (.str s) => nestedParsedStage reqId ts (parse s)
  | _ => .error .parseFailure

/-- The nested variant's live `callGemini` after the HTTP exchange:
`data?` is `resp.data` (`none` for a missing body), `parse` the platform
`JSON.parse`.  Mock mode is dispatched before this code runs and is modelled
separately (`mockLLMResponse`). -/
def callGeminiNested (data? : Option JsonVal) (parse : JSString → Option JsonVal)
    (reqId ts : JSString) : Except GatewayError JsonVal :=
  match firstCandidate data? with
  | none => .error .invalidResponse
  | some c => nestedTextStage parse reqId ts (candTextChain c)

/-- Step 4 of the flat gateway's guards: `!content.parts[0].text`, then the
`typeof`-dependent behaviour of `text.includes` (TypeError on non-strings). -/
def flatTextStep : Option JsonVal → Except GatewayError JSString
  | none => .error .noTextContent
  | some (.str s) => .ok s
  | some _ => .error .notAString

/-- Step 3 of the flat gateway's guards: `!content.parts[0]`. -/
def flatPart0Step : Option JsonVal → Except GatewayError JSString
  | none => .error .noTextContent
  | some p0 => flatTextStep (truthyOpt (getField p0 ("text".data)))

/-- Step 2 of the flat gateway's guards: `!content.parts`. -/
def flatPartsStep : Option JsonVal → Except GatewayError JSString
  | none => .error .noTextContent
  | some ps => flatPart0Step (truthyOpt (idx0 ps))

/-- Step 1 of the flat gateway's guards: `!content`. -/
def flatContentStep : Option JsonVal → Except GatewayError JSString
  | none => .error .noTextContent
  | some ct => flatPartsStep (truthyOpt (getField ct ("parts".data)))

/-- The flat gateway's guard chain on the first candidate, ending in the
candidate's text. -/
def flatCandidateText (c : JsonVal) : Except GatewayError JSString :=
  flatContentStep (truthyOpt (getField c ("content".data)))

/-- `JSON.parse` outcome in the flat gateway. -/
def flatParsedStage : Option JsonVal → Except GatewayError JsonVal
  | some j => .ok j
  | none => .error .parseFailure

/-- The flat gateway after the candidate guards: fence stripping, then parse. -/
def flatTextResult (parse : JSString → Option JsonVal) :
    Except GatewayError JSString → Except GatewayError JsonVal
  | .error e => .error e
  | .ok s => flatParsedStage (parse (extractJson s))

/-- The flat variant's live `callGemini` after the HTTP exchange, with its
two explicit guards and the fence-stripping normalization. -/
def callGeminiFlat (data? : Option JsonVal)
    (parse : JSString → Option JsonVal) : Except GatewayError JsonVal :=
  match firstCandidate data? with
  | none => .error .invalidResponse
  | some c => flatTextResult parse (flatCandidateText c)

/-- `validateSchema(obj)` of the nested variant:
`if(!obj || !obj.metadata || !obj.results) return false; return true;` -/
def validateSchema (j : JsonVal) : Bool :=
  truthy j && truthyField j ("metadata".data) && truthyField j ("results".data)

/-- Observable outcome of one request: HTTP status, whether `callGemini` was
invoked, and the sanitized profile object handed to `buildPrompt`/the gateway
(`none` when the request was rejected before that point). -/
structure Resp where
  status : Nat
  gatewayCalled : Bool
  usedProfile : Option JsonVal

/-- The nested handler's response mapping after the gateway call, with `p`
the sanitized profile: a gateway throw hits the catch ⇒ 500; an output
failing `validateSchema` ⇒ 502; otherwise 200. -/
def handlerStageNested (p : JsonVal) : Except GatewayError JsonVal → Resp
  | .error _ => ⟨500, true, some p⟩
  | .ok j => if validateSchema j then ⟨200, true, some p⟩ else ⟨502, true, some p⟩

/-- The nested variant's POST /api/recommend handler in live mode.  The 400
guard is `if(!body || !body.profile)`; sanitization and parameter extraction
happen next. -/
def nestedHandleLive (body : JsonVal) (data? : Option JsonVal)
    (parse : JSString → Option JsonVal) (reqId ts : JSString) : Resp :=
  if truthy body && truthyField body ("profile".data) then
    handlerStageNested
      (sanitizeProfileNested ((getField body ("profile".data)).getD .null))
      (callGeminiNested data? parse reqId ts)
  else ⟨400, false, none⟩

/-- `req.body.profile || req.body` of the flat handler. -/
def flatProfileOf (body : JsonVal) : JsonVal :=
  match getField body ("profile".data) with
  | some v => if truthy v then v else body
  | none => body

/-- The flat handler's response mapping after the gateway call: no schema
validation, so any parsed result is returned as 200 and any gateway throw is
caught ⇒ 500. -/
def handlerStageFlat (p : JsonVal) : Except GatewayError JsonVal → Resp
  | .error _ => ⟨500, true, some p⟩
  | .ok _ => ⟨200, true, some p⟩

/-- The flat variant's POST /api/recommend handler in live mode.  The 400
guard is `if (!profile || !profile.age || !profile.reading_level)`. -/
def flatHandle (body : JsonVal) (data? : Option JsonVal)
    (parse : JSString → Option JsonVal) : Resp :=
  if truthy (flatProfileOf body) && truthyField (flatProfileOf body) ("age".data)
      && truthyField (flatProfileOf body) ("reading_level".data) then
    handlerStageFlat (sanitizeProfileFlat (flatProfileOf body))
      (callGeminiFlat data? parse)
  else ⟨400, false, none⟩

/-- A well-formed remote-API body whose single candidate carries the text
`t` (the shape both gateways expect). -/
def mkGeminiData (t : JSString) : JsonVal :=
  .obj [(("candidates".data),
    .arr [.obj [(("content".data),
      .obj [(("parts".data), .arr [.obj [(("text".data), .str t)]])])]])]

/-! Helper lemmas about the string primitives. -/

lemma seqPrefixOf_append_self : ∀ s t : List Char, seqPrefixOf s (s ++ t) = true := by
  intro s t
  induction s with
  | nil => rfl
  | cons a as ih => simp [seqPrefixOf, ih]

lemma splitGo_ne_nil (sep : List Char) : ∀ n s, splitGo sep n s ≠ [] := by
  intro n s
  match n, s with
  | _, [] => simp [splitGo]
  | 0, c :: rest => simp [splitGo]
  | n + 1, c :: rest =>
    simp only [splitGo]
    split
    · simp
    · split
      · simp
      · split <;> simp

lemma splitGo_fuel (sep : List Char) :
    ∀ n m s, s.length ≤ n → s.length ≤ m → splitGo sep n s = splitGo sep m s := by
  intro n
  induction n with
  | zero =>
    intro m s hn _
    have hs : s = [] := List.eq_nil_of_length_eq_zero (Nat.le_zero.mp hn)
    subst hs
    cases m <;> rfl
  | succ n ih =>
    intro m s hn hm
    cases s with
    | nil => cases m <;> rfl
    | cons c rest =>
      cases m with
      | zero => simp at hm
      | succ m' =>
        simp only [splitGo]
        split
        · rfl
        · rename_i hse
          have h1 : 1 ≤ sep.length := by
            cases sep
            · simp at hse
            · simp
          split
          · have hlen : (List.drop sep.length (c :: rest)).length ≤ n := by
              simp only [List.length_drop, List.length_cons]
              simp only [List.length_cons] at hn
              omega
            have hlen' : (List.drop sep.length (c :: rest)).length ≤ m' := by
              simp only [List.length_drop, List.length_cons]
              simp only [List.length_cons] at hm
              omega
            rw [ih _ _ hlen hlen']
          · have hr : splitGo sep n rest = splitGo sep m' rest := by
              apply ih
              · simp only [List.length_cons] at hn; omega
              · simp only [List.length_cons] at hm; omega
            rw [hr]

lemma splitSeq_of_not_contains (sep : List Char) (hsep : sep ≠ []) :
    ∀ s, containsSeq sep s = false → splitSeq sep s = [s] := by
  suffices h : ∀ s, containsSeq sep s = false → splitGo sep s.length s = [s] by
    intro s hc; exact h s hc
  intro s
  induction s with
  | nil => intro _; rfl
  | cons c rest ih =>
    intro hc
    simp only [containsSeq, Bool.or_eq_false_iff] at hc
    simp only [List.length_cons, splitGo]
    rw [if_neg (by simp [hsep]), if_neg (by simp [hc.1]), ih hc.2]

lemma splitSeq_cons_sep (sep rest : List Char) (hsep : sep ≠ []) :
    splitSeq sep (sep ++ rest) = [] :: splitSeq sep rest := by
  obtain ⟨a, as, rfl⟩ : ∃ a as, sep = a :: as := by
    cases sep
    · simp at hsep
    · exact ⟨_, _, rfl⟩
  show splitGo (a :: as) ((a :: (as ++ rest)).length) (a :: (as ++ rest)) = _
  rw [show (a :: (as ++ rest)).length = (as ++ rest).length + 1 from by simp]
  simp only [splitGo]
  rw [if_neg (by simp), if_pos (by simpa using seqPrefixOf_append_self (a :: as) rest)]
  have hdrop : List.drop (a :: as).length (a :: (as ++ rest)) = rest := by
    rw [show (a :: as).length = as.length + 1 from rfl, List.drop_succ_cons]
    exact List.drop_left as rest
  rw [hdrop]
  rw [splitGo_fuel (a :: as) ((as ++ rest).length) rest.length rest (by simp) (le_refl _)]
  rfl

lemma splitSeq_skip_clean (sep' a tail : List Char)
    (ha : ∀ c ∈ a, c ≠ tick) (t : List Char) (ts : List (List Char))
    (h : splitSeq (tick :: sep') tail = t :: ts) :
    splitSeq (tick :: sep') (a ++ tail) = (a ++ t) :: ts := by
  induction a with
  | nil => simpa using h
  | cons c a' ih =>
    have hc : c ≠ tick := ha c (List.mem_cons_self c a')
    have ha' : ∀ x ∈ a', x ≠ tick := fun x hx => ha x (List.mem_cons_of_mem _ hx)
    have hpre : seqPrefixOf (tick :: sep') (c :: (a' ++ tail)) = false := by
      simp only [seqPrefixOf]
      rw [if_neg (fun he => hc he.symm)]
    show splitGo _ ((c :: (a' ++ tail)).length) (c :: (a' ++ tail)) = _
    simp only [List.length_cons, splitGo]
    rw [if_neg (by simp), if_neg (by simp [hpre])]
    have hx := ih ha'
    show (match splitGo (tick :: sep') (a' ++ tail).length (a' ++ tail) with
      | [] => [[c]]
      | t :: ts => (c :: t) :: ts) = _
    rw [show splitGo (tick :: sep') (a' ++ tail).length (a' ++ tail)
          = (a' ++ t) :: ts from hx]
    rfl

lemma containsSeq_skip_clean (sep' a tail : List Char) (ha : ∀ c ∈ a, c ≠ tick) :
    containsSeq (tick :: sep') (a ++ tail) = containsSeq (tick :: sep') tail := by
  induction a with
  | nil => rfl
  | cons c a' ih =>
    have hc : c ≠ tick := ha c (List.mem_cons_self c a')
    have ha' : ∀ x ∈ a', x ≠ tick := fun x hx => ha x (List.mem_cons_of_mem _ hx)
    simp only [List.cons_append, containsSeq, seqPrefixOf]
    rw [if_neg (fun he => hc he.symm)]
    simpa using ih ha'

lemma containsSeq_append_self (a : Char) (as t : List Char) :
    containsSeq (a :: as) ((a :: as) ++ t) = true := by
  show containsSeq (a :: as) (a :: (as ++ t)) = true
  have h := seqPrefixOf_append_self (a :: as) t
  rw [List.cons_append] at h
  simp only [containsSeq, h, Bool.true_or]

lemma trimChars_cons_ws (c : Char) (s : List Char) (h : isJsWs c = true) :
    trimChars (c :: s) = trimChars s := by
  simp [trimChars, trimCharsPre, List.dropWhile_cons, h]

lemma trimChars_append_ws (s : List Char) (c : Char) (h : isJsWs c = true) :
    trimChars (s ++ [c]) = trimChars s := by
  induction s with
  | nil => simp [trimChars, trimCharsPre, List.dropWhile_cons, h]
  | cons a s' ih =>
    by_cases hA : isJsWs a
    · rw [List.cons_append, trimChars_cons_ws a _ hA, trimChars_cons_ws a _ hA]
      exact ih
    · simp only [trimChars, trimCharsPre, List.cons_append, List.dropWhile_cons, hA,
        Bool.false_eq_true, if_false]
      simp [List.reverse_cons, List.reverse_append, List.dropWhile_cons, h]

lemma trimChars_wrap (j : List Char) :
    trimChars ('\n' :: (j ++ ['\n'])) = trimChars j := by
  rw [trimChars_cons_ws _ _ (by decide), trimChars_append_ws _ _ (by decide)]

lemma containsSeq_cons_eq (sep : List Char) (c : Char) (rest : List Char) :
    containsSeq sep (c :: rest) = (seqPrefixOf sep (c :: rest) || containsSeq sep rest) := rfl

/-- Both live gateways applied to a well-formed single-candidate body reduce
to their parse step: the flat gateway parses the fence-stripped text (for a
non-empty text; the empty string is falsy and trips the text guard). -/
lemma callGeminiFlat_mkData (t : JSString) (ht : t ≠ [])
    (parse : JSString → Option JsonVal) :
    callGeminiFlat (some (mkGeminiData t)) parse
      = flatParsedStage (parse (extractJson t)) := by
  cases t with
  | nil => exact absurd rfl ht
  | cons c r => rfl

/-- The nested gateway hands the candidate text to the parser verbatim (no
fence stripping) and then injects metadata into the parsed value. -/
lemma callGeminiNested_mkData (t : JSString) (parse : JSString → Option JsonVal)
    (reqId ts : JSString) :
    callGeminiNested (some (mkGeminiData t)) parse reqId ts
      = nestedParsedStage reqId ts (parse t) := rfl

/-- Fence stripping in the flat gateway, for a payload free of backticks:
both fence styles reduce to a `trim` of the payload, and a fence-free
payload passes through unchanged. -/
lemma extractJson_fence_cases (j : JSString) (hj : ∀ c ∈ j, c ≠ tick) :
    extractJson (fenceJson ++ ('\n' :: (j ++ ('\n' :: fence)))) = trimChars j
    ∧ extractJson (fence ++ ('\n' :: (j ++ ('\n' :: fence)))) = trimChars j
    ∧ extractJson j = j := by
  have hnl : ('\n' : Char) ≠ tick := by decide
  have ha : ∀ c ∈ ('\n' :: (j ++ ['\n'])), c ≠ tick := by
    intro c hc
    rcases List.mem_cons.mp hc with rfl | hc2
    · exact hnl
    · rcases List.mem_append.mp hc2 with hcj | hc1
      · exact hj c hcj
      · rw [List.mem_singleton.mp hc1]; exact hnl
  have hrest : '\n' :: (j ++ ('\n' :: fence)) = ('\n' :: (j ++ ['\n'])) ++ fence := by
    simp
  have hsplitfence : splitSeq fence fence = [[], []] := by decide
  have hsplita : splitSeq fence (('\n' :: (j ++ ['\n'])) ++ fence)
      = (('\n' :: (j ++ ['\n'])) ++ []) :: [[]] :=
    splitSeq_skip_clean [tick, tick] _ fence ha [] [[]] hsplitfence
  have hcontrest : containsSeq fenceJson ('\n' :: (j ++ ('\n' :: fence))) = false := by
    rw [hrest]
    rw [show fenceJson = tick :: [tick, tick, 'j', 's', 'o', 'n'] from rfl]
    rw [containsSeq_skip_clean [tick, tick, 'j', 's', 'o', 'n'] _ fence ha]
    decide
  have hsplitrest : splitSeq fenceJson ('\n' :: (j ++ ('\n' :: fence)))
      = ['\n' :: (j ++ ('\n' :: fence))] :=
    splitSeq_of_not_contains fenceJson (by decide) _ hcontrest
  have hcontA : containsSeq fenceJson (fenceJson ++ ('\n' :: (j ++ ('\n' :: fence)))) = true := by
    rw [show fenceJson = tick :: [tick, tick, 'j', 's', 'o', 'n'] from rfl]
    exact containsSeq_append_self tick _ _
  have eA : extractJson (fenceJson ++ ('\n' :: (j ++ ('\n' :: fence)))) = trimChars j := by
    unfold extractJson
    rw [if_pos hcontA]
    rw [splitSeq_cons_sep fenceJson _ (by decide), hsplitrest]
    simp only [List.getD_cons_succ, List.getD_cons_zero]
    rw [hrest, hsplita]
    simp only [List.append_nil, List.getD_cons_zero]
    exact trimChars_wrap j
  have hs1 : seqPrefixOf fenceJson (tick :: tick :: tick :: ('\n' :: (j ++ ('\n' :: fence))))
      = false := by
    simp [fenceJson, seqPrefixOf]
  have hs2 : seqPrefixOf fenceJson (tick :: tick :: ('\n' :: (j ++ ('\n' :: fence))))
      = false := by
    simp [fenceJson, seqPrefixOf, tick]
  have hs3 : seqPrefixOf fenceJson (tick :: ('\n' :: (j ++ ('\n' :: fence))))
      = false := by
    simp [fenceJson, seqPrefixOf, tick]
  have hcontB : containsSeq fenceJson (fence ++ ('\n' :: (j ++ ('\n' :: fence)))) = false := by
    show containsSeq fenceJson
      (tick :: tick :: tick :: ('\n' :: (j ++ ('\n' :: fence)))) = false
    rw [containsSeq_cons_eq, containsSeq_cons_eq, containsSeq_cons_eq,
      hs1, hs2, hs3, hcontrest]
    rfl
  have hcontBf : containsSeq fence (fence ++ ('\n' :: (j ++ ('\n' :: fence)))) = true := by
    rw [show fence = tick :: [tick, tick] from rfl]
    exact containsSeq_append_self tick _ _
  have hca : containsSeq fence ('\n' :: (j ++ ['\n'])) = false := by
    have h2 := containsSeq_skip_clean [tick, tick] ('\n' :: (j ++ ['\n'])) [] ha
    rw [List.append_nil] at h2
    rw [show fence = tick :: [tick, tick] from rfl, h2]
    rfl
  have eB : extractJson (fence ++ ('\n' :: (j ++ ('\n' :: fence)))) = trimChars j := by
    unfold extractJson
    rw [if_neg (by simp [hcontB]), if_pos hcontBf]
    rw [splitSeq_cons_sep fence _ (by decide), hrest, hsplita]
    simp only [List.append_nil, List.getD_cons_succ, List.getD_cons_zero]
    rw [splitSeq_of_not_contains fence (by decide) _ hca]
    simp only [List.getD_cons_zero]
    exact trimChars_wrap j
  have hcj : containsSeq fenceJson j = false := by
    have h2 := containsSeq_skip_clean [tick, tick, 'j', 's', 'o', 'n'] j [] hj
    rw [List.append_nil] at h2
    rw [show fenceJson = tick :: [tick, tick, 'j', 's', 'o', 'n'] from rfl, h2]
    rfl
  have hcf : containsSeq fence j = false := by
    have h2 := containsSeq_skip_clean [tick, tick] j [] hj
    rw [List.append_nil] at h2
    rw [show fence = tick :: [tick, tick] from rfl, h2]
    rfl
  have eU : extractJson j = j := by
    unfold extractJson
    rw [if_neg (by simp [hcj]), if_neg (by simp [hcf])]
  exact ⟨eA, eB, eU⟩

lemma lookupF_setField_self (fs : List (JSString × JsonVal)) (key : JSString) (v : JsonVal) :
    lookupF (setField fs key v) key = some v := by
  induction fs with
  | nil => simp [setField, lookupF]
  | cons kv fs ih =>
    obtain ⟨k, w⟩ := kv
    by_cases h : k = key
    · simp [setField, h, lookupF]
    · simp [setField, h, lookupF, ih]

lemma lookupF_setField_ne (fs : List (JSString × JsonVal)) (key : JSString) (v : JsonVal)
    (k' : JSString) (h : k' ≠ key) :
    lookupF (setField fs key v) k' = lookupF fs k' := by
  have hkk : ¬ (key = k') := fun he => h he.symm
  induction fs with
  | nil => simp [setField, lookupF, hkk]
  | cons kv fs ih =>
    obtain ⟨k, w⟩ := kv
    by_cases hk : k = key
    · subst hk
      simp [setField, lookupF, hkk]
    · simp [setField, hk, lookupF, ih]

lemma getField_sanitizeArrayField_ne (p : JsonVal) (key k' : JSString) (h : k' ≠ key) :
    getField (sanitizeArrayField p key) k' = getField p k' := by
  cases p with
  | obj fs =>
    cases hl : lookupF fs key with
    | none => simp [sanitizeArrayField, hl]
    | some v =>
      cases v with
      | arr xs => simp [sanitizeArrayField, hl, getField, lookupF_setField_ne fs key _ k' h]
      | null => simp [sanitizeArrayField, hl]
      | bool b => simp [sanitizeArrayField, hl]
      | num n => simp [sanitizeArrayField, hl]
      | str s => simp [sanitizeArrayField, hl]
      | obj fs2 => simp [sanitizeArrayField, hl]
  | null => rfl
  | bool b => rfl
  | num n => rfl
  | str s => rfl
  | arr l => rfl

lemma getField_foldl_sanitize_not_mem :
    ∀ (keys : List JSString) (p : JsonVal) (k : JSString),
      k ∉ keys → getField (keys.foldl sanitizeArrayField p) k = getField p k := by
  intro keys
  induction keys with
  | nil => intro p k _; rfl
  | cons k0 rest ih =>
    intro p k hk
    rw [List.foldl_cons]
    rw [ih _ k (fun hmem => hk (List.mem_cons_of_mem _ hmem))]
    exact getField_sanitizeArrayField_ne p k0 k
      (fun he => hk (by rw [he]; exact List.mem_cons_self _ _))

lemma sanitizeArrayField_obj_lookup (fs : List (JSString × JsonVal)) (key : JSString)
    (xs : List JsonVal) (h : lookupF fs key = some (.arr xs)) :
    sanitizeArrayField (.obj fs) key = .obj (setField fs key (.arr (xs.map sanitizeText))) := by
  simp [sanitizeArrayField, h]

lemma getField_foldl_sanitize_mem :
    ∀ (keys : List JSString), keys.Nodup →
      ∀ (p : JsonVal) (k : JSString) (xs : List JsonVal),
        k ∈ keys → getField p k = some (.arr xs) →
        getField (keys.foldl sanitizeArrayField p) k = some (.arr (xs.map sanitizeText)) := by
  intro keys
  induction keys with
  | nil => intro _ p k xs hk _; exact absurd hk (List.not_mem_nil k)
  | cons k0 rest ih =>
    intro hnd p k xs hk hv
    rw [List.foldl_cons]
    rcases List.mem_cons.mp hk with rfl | hmem
    · have hobj : ∃ fs, p = JsonVal.obj fs := by
        cases p with
        | obj fs => exact ⟨fs, rfl⟩
        | null => simp [getField] at hv
        | bool b => simp [getField] at hv
        | num n => simp [getField] at hv
        | str s => simp [getField] at hv
        | arr l => simp [getField] at hv
      obtain ⟨fs, rfl⟩ := hobj
      rw [sanitizeArrayField_obj_lookup fs k xs (by simpa [getField] using hv)]
      rw [getField_foldl_sanitize_not_mem rest _ k (List.nodup_cons.mp hnd).1]
      simp [getField, lookupF_setField_self]
    · have hne : k ≠ k0 := fun he => (List.nodup_cons.mp hnd).1 (he ▸ hmem)
      exact ih (List.nodup_cons.mp hnd).2 _ k xs hmem
        (by rw [getField_sanitizeArrayField_ne p k0 k hne]; exact hv)

lemma lookupF_map_val (fs : List (JSString × JsonVal)) (k : JSString)
    (f : JsonVal → JsonVal) :
    lookupF (fs.map (fun kv => (kv.1, f kv.2))) k = (lookupF fs k).map f := by
  induction fs with
  | nil => rfl
  | cons kv fs ih =>
    obtain ⟨k1, v1⟩ := kv
    by_cases h : k1 = k
    · simp [lookupF, h]
    · simp [lookupF, h, ih]

lemma exists_obj_of_getField {d : JsonVal} {key : JSString} {v : JsonVal}
    (h : getField d key = some v) : ∃ fs, d = JsonVal.obj fs := by
  cases d with
  | obj fs => exact ⟨fs, rfl⟩
  | null => simp [getField] at h
  | bool b => simp [getField] at h
  | num n => simp [getField] at h
  | str s => simp [getField] at h
  | arr l => simp [getField] at h


lemma truthyOpt_some_of_truthy (v : JsonVal) (h : truthy v = true) :
    truthyOpt (some v) = some v := by
  simp [truthyOpt, h]

lemma truthyOpt_some_of_falsy (v : JsonVal) (h : truthy v = false) :
    truthyOpt (some v) = none := by
  simp [truthyOpt, h]

/-- `firstCandidate` on a body whose candidate list is a non-empty array with
a truthy head. -/
lemma firstCandidate_cons (fs : List (JSString × JsonVal)) (c : JsonVal)
    (cs : List JsonVal)
    (hc : lookupF fs ("candidates".data) = some (.arr (c :: cs)))
    (htc : truthy c = true) :
    firstCandidate (some (.obj fs)) = some c := by
  show truthyOpt ((truthyOpt (lookupF fs ("candidates".data))).bind idx0) = some c
  rw [hc]
  show truthyOpt (some c) = some c
  exact truthyOpt_some_of_truthy c htc

/-- Both live gateways reject a response whose candidate list is empty with
the "invalid response" error (`!resp.data.candidates[0]`). -/
lemma callGemini_empty_candidates (d : JsonVal)
    (hc : getField d ("candidates".data) = some (.arr []))
    (parse : JSString → Option JsonVal) (reqId ts : JSString) :
    callGeminiFlat (some d) parse = .error .invalidResponse
    ∧ callGeminiNested (some d) parse reqId ts = .error .invalidResponse := by
  obtain ⟨fs, rfl⟩ := exists_obj_of_getField hc
  simp only [getField] at hc
  have hfc : firstCandidate (some (JsonVal.obj fs)) = none := by
    show truthyOpt ((truthyOpt (lookupF fs ("candidates".data))).bind idx0) = none
    rw [hc]
    rfl
  constructor
  · show (match firstCandidate (some (JsonVal.obj fs)) with
      | none => Except.error GatewayError.invalidResponse
      | some c => flatTextResult parse (flatCandidateText c)) = _
    rw [hfc]
  · show (match firstCandidate (some (JsonVal.obj fs)) with
      | none => Except.error GatewayError.invalidResponse
      | some c => nestedTextStage parse reqId ts (candTextChain c)) = _
    rw [hfc]

/-- The flat gateway's guard chain rejects a first candidate without
non-empty string text with the "no text content" error. -/
lemma flatCandidateText_noText (c : JsonVal)
    (ht : candTextChain c = none ∨ candTextChain c = some (.str [])) :
    flatCandidateText c = .error .noTextContent := by
  simp only [candTextChain] at ht
  rw [flatCandidateText]
  cases hcontent : getField c ("content".data) with
  | none => rfl
  | some ct =>
    rw [hcontent] at ht
    simp only [Option.some_bind] at ht
    by_cases hctt : truthy ct = true
    · rw [truthyOpt_some_of_truthy ct hctt, flatContentStep]
      cases hparts : getField ct ("parts".data) with
      | none => rfl
      | some ps =>
        rw [hparts] at ht
        simp only [Option.some_bind] at ht
        by_cases hpst : truthy ps = true
        · rw [truthyOpt_some_of_truthy ps hpst, flatPartsStep]
          cases hp0 : idx0 ps with
          | none => rfl
          | some p0 =>
            rw [hp0] at ht
            simp only [Option.some_bind] at ht
            by_cases hp0t : truthy p0 = true
            · rw [truthyOpt_some_of_truthy p0 hp0t, flatPart0Step]
              cases htx : getField p0 ("text".data) with
              | none => rfl
              | some tv =>
                rw [htx] at ht
                rcases ht with ht | ht
                · exact absurd ht (by simp)
                · have htv : tv = .str [] := by simpa using ht
                  subst htv
                  rw [truthyOpt_some_of_falsy _ (by rfl)]
                  rfl
            · rw [truthyOpt_some_of_falsy p0 (by simpa using hp0t)]
              rfl
        · rw [truthyOpt_some_of_falsy ps (by simpa using hpst)]
          rfl
    · rw [truthyOpt_some_of_falsy ct (by simpa using hctt)]
      rfl

/-- The flat gateway rejects a first candidate without non-empty string text
with the "no text content" error. -/
lemma callGeminiFlat_noText (d c : JsonVal) (cs : List JsonVal)
    (parse : JSString → Option JsonVal)
    (hc : getField d ("candidates".data) = some (.arr (c :: cs)))
    (htc : truthy c = true)
    (ht : candTextChain c = none ∨ candTextChain c = some (.str [])) :
    callGeminiFlat (some d) parse = .error .noTextContent := by
  obtain ⟨fs, rfl⟩ := exists_obj_of_getField hc
  simp only [getField] at hc
  show (match firstCandidate (some (JsonVal.obj fs)) with
    | none => Except.error GatewayError.invalidResponse
    | some c => flatTextResult parse (flatCandidateText c)) = _
  rw [firstCandidate_cons fs c cs hc htc]
  show flatTextResult parse (flatCandidateText c) = _
  rw [flatCandidateText_noText c ht]
  rfl

/-- The nested gateway converts a first candidate without non-empty string
text into its parse-failure wrap (the TypeError, or `JSON.parse('')`, is
caught and rethrown as the parse failure). -/
lemma callGeminiNested_noText (d c : JsonVal) (cs : List JsonVal)
    (parse : JSString → Option JsonVal) (reqId ts : JSString)
    (hc : getField d ("candidates".data) = some (.arr (c :: cs)))
    (htc : truthy c = true)
    (ht : candTextChain c = none ∨ candTextChain c = some (.str []))
    (hparse : parse [] = none) :
    callGeminiNested (some d) parse reqId ts = .error .parseFailure := by
  obtain ⟨fs, rfl⟩ := exists_obj_of_getField hc
  simp only [getField] at hc
  show (match firstCandidate (some (JsonVal.obj fs)) with
    | none => Except.error GatewayError.invalidResponse
    | some c => nestedTextStage parse reqId ts (candTextChain c)) = _
  rw [firstCandidate_cons fs c cs hc htc]
  show nestedTextStage parse reqId ts (candTextChain c) = _
  rcases ht with ht | ht
  · rw [ht]
    rfl
  · rw [ht]
    show nestedParsedStage reqId ts (parse []) = _
    rw [hparse]
    rfl

/-- C5 (confirmed): for every string s, sanitizeText(sanitizeText(s)) equals
sanitizeText(s); the output on a string contains no character in
[U+0000,U+001F] or [U+007F,U+009F]; and a null input is passed through
unchanged (an absent value never reaches the function). -/
theorem C5_sanitizeText_idempotent_and_clean (s : JSString) :
    sanitizeText (sanitizeText (.str s)) = sanitizeText (.str s)
    ∧ (∀ t, sanitizeText (.str s) = .str t → ∀ c ∈ t, isCtrlChar c = false)
    ∧ sanitizeText .null = .null := by
  refine ⟨?_, ?_, rfl⟩
  · by_cases hs : s.isEmpty
    · have h0 : s = [] := by simpa using hs
      subst h0
      rfl
    · have h1 : sanitizeText (.str s) = .str (stripCtrl s) := by
        simp [sanitizeText, truthy, hs, jsStringOf]
      rw [h1]
      by_cases hu : (stripCtrl s).isEmpty
      · simp [sanitizeText, truthy, hu]
      · simp [sanitizeText, truthy, hu, jsStringOf, stripCtrl, List.filter_filter]
  · intro t h c hc
    by_cases hs : s.isEmpty
    · have h0 : s = [] := by simpa using hs
      subst h0
      have ht : t = [] := by
        rw [show sanitizeText (.str []) = .str [] from rfl] at h
        injection h with h2
        exact h2.symm
      subst ht
      exact absurd hc (List.not_mem_nil c)
    · have h1 : sanitizeText (.str s) = .str (stripCtrl s) := by
        simp [sanitizeText, truthy, hs, jsStringOf]
      rw [h1] at h
      injection h with h2
      subst h2
      have := List.of_mem_filter hc
      simpa using this

/-- C5 witness at a concrete input. -/
theorem C5_witness : isCtrlChar 'z' = false :=
  (C5_sanitizeText_idempotent_and_clean ['z', Char.ofNat 0]).2.1 ['z'] rfl 'z'
    (List.mem_singleton.mpr rfl)

/-- C1 (corrected): for every max-per-category N ≥ 1, the nested variant's
mock gateway returns exactly min(5, N) fiction and min(5, N) nonfiction
entries, while the flat variant's mock returns exactly one entry per
category (its hard-coded single-element lists are sliced to N). -/
theorem C1_amended (P : MockProfile) (Q : JsonVal) (N : Int) (reqId ts : JSString)
    (h : 1 ≤ N) :
    (mockLLMResponse P N reqId ts).results.fiction.length = (min 5 N).toNat
    ∧ (mockLLMResponse P N reqId ts).results.nonfiction.length = (min 5 N).toNat
    ∧ (mockLLMResponseFlat Q N).fiction.length = 1
    ∧ (mockLLMResponseFlat Q N).nonfiction.length = 1 := by
  have hN : ¬ (N = 0) := by omega
  have hslice : ∀ (e : FlatEntry), (jsSlice [e] N).length = 1 := by
    intro e
    rw [jsSlice, if_pos (by omega)]
    have h1 : 1 ≤ N.toNat := by omega
    cases hN2 : N.toNat with
    | zero => omega
    | succ k => simp
  refine ⟨?_, ?_, hslice _, hslice _⟩
  · simp [mockLLMResponse, hN]
  · simp [mockLLMResponse, hN]

/-- C1 counterexample: in the flat variant at N = 2 the mock returns one
fiction entry, not min(5, 2) = 2. -/
theorem C1_counterexample :
    ¬ ((mockLLMResponseFlat (.obj []) 2).fiction.length = (min (5:Int) 2).toNat
       ∧ (mockLLMResponseFlat (.obj []) 2).nonfiction.length = (min (5:Int) 2).toNat) := by
  decide

/-- C1 witness at N = 7. -/
theorem C1_witness :
    (mockLLMResponse ⟨[], 8, none⟩ 7 [] []).results.fiction.length = (min (5:Int) 7).toNat
    ∧ (mockLLMResponse ⟨[], 8, none⟩ 7 [] []).results.nonfiction.length = (min (5:Int) 7).toNat
    ∧ (mockLLMResponseFlat (.obj []) 7).fiction.length = 1
    ∧ (mockLLMResponseFlat (.obj []) 7).nonfiction.length = 1 :=
  C1_amended ⟨[], 8, none⟩ (.obj []) 7 [] [] (by decide)

/-- C8 (corrected): for every profile with integer age and positive
minutes_per_week m, each nested-mock entry has reading_time_minutes
`max(10, round(m/5))` (written `(2*m+5)/10` in exact arithmetic), age_range
equal to the string "L-H" with L = max(4, age-2) and H = age+3, and a
short_description of at most 250 characters.  When m = 0 (falsy) the code
substitutes 60 instead, which the counterexample exhibits. -/
theorem C8_amended (P : MockProfile) (N : Int) (reqId ts : JSString) (m : Nat)
    (hm : P.minutes_per_week = some m) (h0 : m ≠ 0) :
    ∀ e ∈ (mockLLMResponse P N reqId ts).results.fiction
        ++ (mockLLMResponse P N reqId ts).results.nonfiction,
      e.reading_time_minutes = max 10 ((2 * m + 5) / 10)
      ∧ e.age_range = intStr (max 4 (P.age - 2)) ++ '-' :: intStr (P.age + 3)
      ∧ e.short_description.length ≤ 250 := by
  intro e he
  have hmk : ∀ (title : JSString) (tags : List JSString) (fiction : Bool),
      (mkMockEntry P title tags fiction).reading_time_minutes
        = max 10 ((2 * m + 5) / 10) := by
    intro title tags fiction
    obtain ⟨k, rfl⟩ := Nat.exists_eq_succ_of_ne_zero h0
    simp [mkMockEntry, hm]
  rcases List.mem_append.mp he with h | h
  · have h2 : e ∈ (List.range ((min 5 (if N = 0 then 5 else N)).toNat)).map
        (fun i => mkMockEntry P (("Fun Story ".data) ++ natStr (i + 1))
          [("adventure".data), ("friendship".data)] true) := h
    rcases List.mem_map.mp h2 with ⟨i, hi, rfl⟩
    exact ⟨hmk _ _ _, rfl, by
      simp only [mkMockEntry]
      exact List.length_take_le 250 _⟩
  · have h2 : e ∈ (List.range ((min 5 (if N = 0 then 5 else N)).toNat)).map
        (fun i => mkMockEntry P (("Real Facts ".data) ++ natStr (i + 1))
          [("science".data), ("learning".data)] false) := h
    rcases List.mem_map.mp h2 with ⟨i, hi, rfl⟩
    exact ⟨hmk _ _ _, rfl, by
      simp only [mkMockEntry]
      exact List.length_take_le 250 _⟩

/-- C8 counterexample: with numeric minutes_per_week = 0 the entry carries
reading_time_minutes 12 (from the fallback `0||60`), not
max(10, round(0/5)) = 10. -/
theorem C8_counterexample :
    (mockLLMResponse ⟨[], 8, some 0⟩ 1 [] []).results.fiction.map
        (fun e => e.reading_time_minutes) = [12]
    ∧ (12 : Nat) ≠ max 10 ((2 * 0 + 5) / 10) := by
  refine ⟨by decide, by decide⟩

/-- C8 witness at minutes_per_week = 50, age 9. -/
theorem C8_witness :
    ((mockLLMResponse ⟨[], 9, some 50⟩ 1 [] []).results.fiction.headD
        (mkMockEntry ⟨[], 9, some 50⟩ [] [] true)).reading_time_minutes
      = max 10 ((2 * 50 + 5) / 10) :=
  ((C8_amended ⟨[], 9, some 50⟩ 1 [] [] 50 rfl (by decide)) _ (by decide)).1

/-- C7 (corrected): the nested pipeline uses `Number(body.max_results_per_category) || 5`,
which is 5 when the field is absent (or NaN or 0) but equals the supplied
number even when it is not positive; the flat pipeline instead uses
`min(parseInt(query.max || '3'), 5)` with default 3, cap 5 and NaN on
non-numeric input. -/
theorem C7_amended (body : JsonVal) (n : Int) :
    (getField body ("max_results_per_category".data) = none →
      maxPerCategoryNested body = 5)
    ∧ (getField body ("max_results_per_category".data) = some (.num n) →
      maxPerCategoryNested body = if n = 0 then 5 else n)
    ∧ maxPerCategoryFlat none = .int 3
    ∧ maxPerCategoryFlat (some ("7".data)) = .int 5
    ∧ maxPerCategoryFlat (some ("abc".data)) = .nan := by
  refine ⟨?_, ?_, by decide, by decide, by decide⟩
  · intro h
    simp [maxPerCategoryNested, h, numOr5]
  · intro h
    simp [maxPerCategoryNested, h, jsNumberOfVal, numOr5]

/-- C7 counterexample: a client-supplied value of -2 is used as-is, so the
value driving the pipeline is neither positive nor the default 5. -/
theorem C7_counterexample :
    maxPerCategoryNested (.obj [(("max_results_per_category".data), .num (-2))]) = -2
    ∧ ¬ (0 < (-2 : Int))
    ∧ maxPerCategoryNested (.obj [(("max_results_per_category".data), .num (-2))]) ≠ 5 := by
  decide

/-- C7 witness: absent field gives 5; the value 4 is passed through. -/
theorem C7_witness :
    maxPerCategoryNested (.obj []) = 5
    ∧ maxPerCategoryNested (.obj [(("max_results_per_category".data), .num 4)])
      = if (4 : Int) = 0 then 5 else 4 :=
  ⟨(C7_amended (.obj []) 0).1 rfl,
   (C7_amended (.obj [(("max_results_per_category".data), .num 4)]) 4).2.1 rfl⟩

lemma nestedHandleLive_invalid (body : JsonVal) (data? : Option JsonVal)
    (parse : JSString → Option JsonVal) (reqId ts : JSString)
    (h : (truthy body && truthyField body ("profile".data)) = false) :
    nestedHandleLive body data? parse reqId ts = ⟨400, false, none⟩ := by
  simp [nestedHandleLive, h]

lemma nestedHandleLive_valid (body : JsonVal) (data? : Option JsonVal)
    (parse : JSString → Option JsonVal) (reqId ts : JSString)
    (hb : truthy body = true) (hp : truthyField body ("profile".data) = true) :
    nestedHandleLive body data? parse reqId ts =
      handlerStageNested
        (sanitizeProfileNested ((getField body ("profile".data)).getD .null))
        (callGeminiNested data? parse reqId ts) := by
  simp [nestedHandleLive, hb, hp]

lemma flatHandle_invalid (body : JsonVal) (data? : Option JsonVal)
    (parse : JSString → Option JsonVal)
    (h : (truthy (flatProfileOf body) && truthyField (flatProfileOf body) ("age".data)
          && truthyField (flatProfileOf body) ("reading_level".data)) = false) :
    flatHandle body data? parse = ⟨400, false, none⟩ := by
  simp [flatHandle, h]

lemma flatHandle_valid (body : JsonVal) (data? : Option JsonVal)
    (parse : JSString → Option JsonVal)
    (h : (truthy (flatProfileOf body) && truthyField (flatProfileOf body) ("age".data)
          && truthyField (flatProfileOf body) ("reading_level".data)) = true) :
    flatHandle body data? parse =
      handlerStageFlat (sanitizeProfileFlat (flatProfileOf body))
        (callGeminiFlat data? parse) := by
  simp [flatHandle, h]

/-- C2 (corrected): in the nested variant (the only variant with schema
validation), model output that parses to a non-null value which, after the
gateway injects `metadata`, still fails `validateSchema` (equivalently,
lacks a truthy `results` key) makes /api/recommend respond 502; but output
that cannot be parsed as JSON at all, and output parsing to JSON null
(where the `json.metadata =` assignment throws), are rethrown inside the
gateway, caught by the generic handler, and answered with 500, not 502. -/
theorem C2_amended (body : JsonVal) (t : JSString) (parse : JSString → Option JsonVal)
    (reqId ts : JSString)
    (hb : truthy body = true) (hp : truthyField body ("profile".data) = true) :
    (parse t = none →
      (nestedHandleLive body (some (mkGeminiData t)) parse reqId ts).status = 500)
    ∧ (parse t = some .null →
      (nestedHandleLive body (some (mkGeminiData t)) parse reqId ts).status = 500)
    ∧ (∀ j j2, parse t = some j → addMetadata (metaObj reqId ts) j = some j2 →
        validateSchema j2 = false →
        (nestedHandleLive body (some (mkGeminiData t)) parse reqId ts).status = 502)
    ∧ (∀ j j2, parse t = some j → addMetadata (metaObj reqId ts) j = some j2 →
        validateSchema j2 = true →
        (nestedHandleLive body (some (mkGeminiData t)) parse reqId ts).status = 200) := by
  have hh := nestedHandleLive_valid body (some (mkGeminiData t)) parse reqId ts hb hp
  refine ⟨?_, ?_, ?_, ?_⟩
  · intro h
    rw [hh, callGeminiNested_mkData, h]
    rfl
  · intro h
    rw [hh, callGeminiNested_mkData, h]
    rfl
  · intro j j2 h hmeta hval
    rw [hh, callGeminiNested_mkData, h]
    simp only [nestedParsedStage, hmeta, nestedMetaStage]
    simp [handlerStageNested, hval]
  · intro j j2 h hmeta hval
    rw [hh, callGeminiNested_mkData, h]
    simp only [nestedParsedStage, hmeta, nestedMetaStage]
    simp [handlerStageNested, hval]

/-- C2 counterexample: unparsable model output ("oops") yields HTTP 500, not
the 502 the claim requires. -/
theorem C2_counterexample :
    (nestedHandleLive (.obj [(("profile".data), .obj [(("age".data), .num 8)])])
        (some (mkGeminiData ("oops".data))) (fun _ => none) [] []).status = 500
    ∧ (500 : Nat) ≠ 502 := by
  exact ⟨rfl, by decide⟩

/-- C2 witness: a parsed object without `results` gets 502; a parsed object
with truthy `results` gets 200. -/
theorem C2_witness :
    (nestedHandleLive (.obj [(("profile".data), .obj [])])
        (some (mkGeminiData ("x".data))) (fun _ => some (.obj [])) [] []).status = 502
    ∧ (nestedHandleLive (.obj [(("profile".data), .obj [])])
        (some (mkGeminiData ("x".data)))
        (fun _ => some (.obj [(("results".data), .obj [])])) [] []).status = 200 :=
  ⟨((C2_amended (.obj [(("profile".data), .obj [])]) ("x".data) (fun _ => some (.obj []))
      [] [] rfl rfl).2.2.1) (.obj []) _ rfl rfl (by decide),
   ((C2_amended (.obj [(("profile".data), .obj [])]) ("x".data)
      (fun _ => some (.obj [(("results".data), .obj [])])) [] [] rfl rfl).2.2.2)
      (.obj [(("results".data), .obj [])]) _ rfl rfl (by decide)⟩

/-- C4 (corrected): in the nested variant a request body without a `profile`
field is answered 400 and no gateway is invoked; in the flat variant the
top-level body itself is used as the profile (`req.body.profile || req.body`),
so such a request proceeds to the gateway whenever the body has truthy `age`
and `reading_level`, and is rejected with 400 otherwise. -/
theorem C4_amended (body : JsonVal) (data? : Option JsonVal)
    (parse : JSString → Option JsonVal) (reqId ts : JSString)
    (h : getField body ("profile".data) = none) :
    nestedHandleLive body data? parse reqId ts = ⟨400, false, none⟩
    ∧ ((truthy body && truthyField body ("age".data)
        && truthyField body ("reading_level".data)) = true →
      (flatHandle body data? parse).gatewayCalled = true
      ∧ (flatHandle body data? parse).status ≠ 400)
    ∧ ((truthy body && truthyField body ("age".data)
        && truthyField body ("reading_level".data)) = false →
      flatHandle body data? parse = ⟨400, false, none⟩) := by
  have hfp : flatProfileOf body = body := by simp [flatProfileOf, h]
  refine ⟨?_, ?_, ?_⟩
  · apply nestedHandleLive_invalid
    simp [truthyField, h]
  · intro hcond
    rw [flatHandle_valid body data? parse (by rw [hfp]; exact hcond)]
    cases hg : callGeminiFlat data? parse with
    | error e => simp [handlerStageFlat]
    | ok j => simp [handlerStageFlat]
  · intro hcond
    apply flatHandle_invalid
    rw [hfp]
    exact hcond

/-- C4 counterexample: a body with no `profile` field but top-level age and
reading_level is accepted by the flat variant and reaches the gateway,
refuting "responds 400 and no gateway is invoked". -/
theorem C4_counterexample :
    (flatHandle (.obj [(("age".data), .num 8), (("reading_level".data), .str ("easy".data))])
        (some (mkGeminiData ("[1]".data))) (fun _ => some (.arr [.num 1]))).status = 200
    ∧ (flatHandle (.obj [(("age".data), .num 8), (("reading_level".data), .str ("easy".data))])
        (some (mkGeminiData ("[1]".data))) (fun _ => some (.arr [.num 1]))).gatewayCalled = true
    ∧ getField (.obj [(("age".data), .num 8), (("reading_level".data), .str ("easy".data))])
        ("profile".data) = none :=
  ⟨rfl, rfl, rfl⟩

/-- C4 witness: the same profile-less body is 400 in the nested variant and
proceeds in the flat variant. -/
theorem C4_witness :
    nestedHandleLive (.obj [(("age".data), .num 8), (("reading_level".data), .str ("easy".data))])
        none (fun _ => none) [] [] = ⟨400, false, none⟩
    ∧ (flatHandle (.obj [(("age".data), .num 8), (("reading_level".data), .str ("easy".data))])
        none (fun _ => none)).status ≠ 400 :=
  ⟨(C4_amended (.obj [(("age".data), .num 8), (("reading_level".data), .str ("easy".data))])
      none (fun _ => none) [] [] rfl).1,
   ((C4_amended (.obj [(("age".data), .num 8), (("reading_level".data), .str ("easy".data))])
      none (fun _ => none) [] [] rfl).2.1 (by decide)).2⟩

/-- C10 (confirmed): in the flat variant, every request whose effective
profile lacks a truthy `age` or a truthy `reading_level` (age 0 and the
empty-string reading_level included) is rejected with HTTP 400 before any
sanitization (usedProfile is none) and before any gateway call
(gatewayCalled is false), even though the data model marks no field
required. -/
theorem C10_flat_requires_age_reading_level (body : JsonVal) (data? : Option JsonVal)
    (parse : JSString → Option JsonVal)
    (h : truthyField (flatProfileOf body) ("age".data) = false
       ∨ truthyField (flatProfileOf body) ("reading_level".data) = false) :
    flatHandle body data? parse = ⟨400, false, none⟩ := by
  apply flatHandle_invalid
  rcases h with h | h <;> simp [h]

/-- C10 witness: age 0 is falsy and rejected. -/
theorem C10_witness :
    flatHandle (.obj [(("age".data), .num 0), (("reading_level".data), .str ("easy".data))])
        none (fun _ => none) = ⟨400, false, none⟩ :=
  C10_flat_requires_age_reading_level _ none (fun _ => none) (Or.inl (by decide))

/-- C6 (corrected): before prompt building, the nested handler applies
sanitization element-wise to exactly the seven string-bearing array fields
of the profile and to every element of exclude_titles, but it does NOT
sanitize non-array string fields (counterexample: gender); the flat handler
conversely sanitizes only top-level string-valued fields of the profile and
leaves array fields untouched. -/
theorem C6_amended (fs : List (JSString × JsonVal)) (k : JSString) (xs : List JsonVal)
    (s : JSString) (body : JsonVal) :
    (k ∈ arrayProfileKeys → getField (.obj fs) k = some (.arr xs) →
      getField (sanitizeProfileNested (.obj fs)) k = some (.arr (xs.map sanitizeText)))
    ∧ (getField body ("exclude_titles".data) = some (.arr xs) →
      excludeTitlesNested body = xs.map sanitizeText)
    ∧ (getField (.obj fs) k = some (.str s) →
      getField (sanitizeProfileFlat (.obj fs)) k = some (sanitizeText (.str s)))
    ∧ (getField (.obj fs) k = some (.arr xs) →
      getField (sanitizeProfileFlat (.obj fs)) k = some (.arr xs)) := by
  refine ⟨?_, ?_, ?_, ?_⟩
  · intro hk hv
    exact getField_foldl_sanitize_mem arrayProfileKeys (by decide) _ k xs hk hv
  · intro hv
    simp [excludeTitlesNested, hv]
  · intro hv
    simp only [getField] at hv
    show lookupF (fs.map (fun kv => (kv.1, sanitizeStrVal kv.2))) k
      = some (sanitizeText (.str s))
    rw [lookupF_map_val fs k sanitizeStrVal, hv]
    rfl
  · intro hv
    simp only [getField] at hv
    show lookupF (fs.map (fun kv => (kv.1, sanitizeStrVal kv.2))) k
      = some (JsonVal.arr xs)
    rw [lookupF_map_val fs k sanitizeStrVal, hv]
    rfl

/-- C6 counterexample: the nested sanitization pass leaves the non-array
string field `gender` untouched even though it contains U+0000, which
sanitizeText would have removed. -/
theorem C6_counterexample :
    getField (sanitizeProfileNested (.obj [(("gender".data), .str ['a', Char.ofNat 0, 'b']),
        (("interests".data), .arr [])])) ("gender".data)
      = some (.str ['a', Char.ofNat 0, 'b'])
    ∧ sanitizeText (.str ['a', Char.ofNat 0, 'b']) = .str ['a', 'b']
    ∧ (['a', Char.ofNat 0, 'b'] : JSString) ≠ ['a', 'b'] :=
  ⟨rfl, rfl, by decide⟩

/-- C6 witness: the interests array is sanitized element-wise. -/
theorem C6_witness :
    getField (sanitizeProfileNested (.obj [(("interests".data),
        .arr [.str ['a', Char.ofNat 0]])])) ("interests".data)
      = some (.arr ([.str ['a', Char.ofNat 0]].map sanitizeText)) :=
  (C6_amended [(("interests".data), .arr [.str ['a', Char.ofNat 0]])] ("interests".data)
      [.str ['a', Char.ofNat 0]] [] (.obj [])).1 (by decide) rfl

lemma flatHandle_status_ne_200_of_error (body : JsonVal) (data? : Option JsonVal)
    (parse : JSString → Option JsonVal) (e : GatewayError)
    (h : callGeminiFlat data? parse = .error e) :
    (flatHandle body data? parse).status ≠ 200 := by
  by_cases hcond : (truthy (flatProfileOf body)
      && truthyField (flatProfileOf body) ("age".data)
      && truthyField (flatProfileOf body) ("reading_level".data)) = true
  · rw [flatHandle_valid body data? parse hcond, h]
    simp [handlerStageFlat]
  · rw [flatHandle_invalid body data? parse (by simpa using hcond)]
    simp

lemma nestedHandle_status_ne_200_of_error (body : JsonVal) (data? : Option JsonVal)
    (parse : JSString → Option JsonVal) (reqId ts : JSString) (e : GatewayError)
    (h : callGeminiNested data? parse reqId ts = .error e) :
    (nestedHandleLive body data? parse reqId ts).status ≠ 200 := by
  by_cases hcond : (truthy body && truthyField body ("profile".data)) = true
  · rcases (by simpa [Bool.and_eq_true] using hcond :
        truthy body = true ∧ truthyField body ("profile".data) = true) with ⟨hb, hp⟩
    rw [nestedHandleLive_valid body data? parse reqId ts hb hp, h]
    simp [handlerStageNested]
  · rw [nestedHandleLive_invalid body data? parse reqId ts (by simpa using hcond)]
    simp

/-- C9 (confirmed): a remote-API response with an empty candidate list, or
whose (truthy) first candidate carries no non-empty string text, makes both
live gateways return an error — "Invalid response" / "No text content" in
the flat variant, the rethrown parse-failure wrap in the nested one — and
/api/recommend answers a non-200 status while the handler still produces a
response (the throw is caught, the process does not crash). -/
theorem C9_upstream_failures (body d c : JsonVal) (cs : List JsonVal)
    (parse : JSString → Option JsonVal) (reqId ts : JSString) :
    (getField d ("candidates".data) = some (.arr []) →
      callGeminiFlat (some d) parse = .error .invalidResponse
      ∧ callGeminiNested (some d) parse reqId ts = .error .invalidResponse
      ∧ (flatHandle body (some d) parse).status ≠ 200
      ∧ (nestedHandleLive body (some d) parse reqId ts).status ≠ 200)
    ∧ (getField d ("candidates".data) = some (.arr (c :: cs)) → truthy c = true →
       (candTextChain c = none ∨ candTextChain c = some (.str [])) → parse [] = none →
      callGeminiFlat (some d) parse = .error .noTextContent
      ∧ callGeminiNested (some d) parse reqId ts = .error .parseFailure
      ∧ (flatHandle body (some d) parse).status ≠ 200
      ∧ (nestedHandleLive body (some d) parse reqId ts).status ≠ 200) := by
  constructor
  · intro hc
    obtain ⟨hf, hn⟩ := callGemini_empty_candidates d hc parse reqId ts
    exact ⟨hf, hn, flatHandle_status_ne_200_of_error body _ parse _ hf,
      nestedHandle_status_ne_200_of_error body _ parse reqId ts _ hn⟩
  · intro hc htc ht hparse
    have hf := callGeminiFlat_noText d c cs parse hc htc ht
    have hn := callGeminiNested_noText d c cs parse reqId ts hc htc ht hparse
    exact ⟨hf, hn, flatHandle_status_ne_200_of_error body _ parse _ hf,
      nestedHandle_status_ne_200_of_error body _ parse reqId ts _ hn⟩

/-- C9 witness: an empty candidate list is rejected and the endpoint does
not answer 200. -/
theorem C9_witness :
    callGeminiFlat (some (.obj [(("candidates".data), .arr [])])) (fun _ => none)
      = .error .invalidResponse
    ∧ (flatHandle (.obj []) (some (.obj [(("candidates".data), .arr [])]))
        (fun _ => none)).status ≠ 200 :=
  ⟨((C9_upstream_failures (.obj []) (.obj [(("candidates".data), .arr [])]) .null []
      (fun _ => none) [] []).1 rfl).1,
   ((C9_upstream_failures (.obj []) (.obj [(("candidates".data), .arr [])]) .null []
      (fun _ => none) [] []).1 rfl).2.2.1⟩

/-- C3 (corrected): only the flat variant strips Markdown fencing.  For every
JSON text j in which no backtick occurs, stripping either fence style
(```json ... ``` or ``` ... ```) hands JSON.parse the string trim(j) —
identical to j up to surrounding whitespace, which JSON.parse ignores — and
an unfenced j passes through unchanged; consequently, for any parser that
agrees on j and trim(j), the flat gateway yields the same parsed result for
the fenced and unfenced response.  The nested variant's gateway hands the
candidate text to JSON.parse verbatim, so fenced output fails to parse there
(see the counterexample). -/
theorem C3_amended (j : JSString) (hj : ∀ c ∈ j, c ≠ tick)
    (parse : JSString → Option JsonVal) (hp : parse (trimChars j) = parse j)
    (hne : j ≠ []) :
    extractJson (fenceJson ++ ('\n' :: (j ++ ('\n' :: fence)))) = trimChars j
    ∧ extractJson (fence ++ ('\n' :: (j ++ ('\n' :: fence)))) = trimChars j
    ∧ extractJson j = j
    ∧ callGeminiFlat
        (some (mkGeminiData (fenceJson ++ ('\n' :: (j ++ ('\n' :: fence)))))) parse
      = callGeminiFlat (some (mkGeminiData j)) parse
    ∧ callGeminiFlat
        (some (mkGeminiData (fence ++ ('\n' :: (j ++ ('\n' :: fence)))))) parse
      = callGeminiFlat (some (mkGeminiData j)) parse := by
  obtain ⟨eA, eB, eU⟩ := extractJson_fence_cases j hj
  have hfA : (fenceJson ++ ('\n' :: (j ++ ('\n' :: fence)))) ≠ [] := by
    simp [fenceJson]
  have hfB : (fence ++ ('\n' :: (j ++ ('\n' :: fence)))) ≠ [] := by
    simp [fence]
  refine ⟨eA, eB, eU, ?_, ?_⟩
  · rw [callGeminiFlat_mkData _ hfA parse, callGeminiFlat_mkData _ hne parse, eA, eU, hp]
  · rw [callGeminiFlat_mkData _ hfB parse, callGeminiFlat_mkData _ hne parse, eB, eU, hp]

/-- C3 counterexample: with a parser that (like JSON.parse) accepts "[1]"
and rejects the fenced text, the nested gateway fails on the fenced response
— its parse input keeps the fence — while the flat gateway parses it. -/
theorem C3_counterexample :
    callGeminiNested (some (mkGeminiData
        (fenceJson ++ ('\n' :: ("[1]".data ++ ('\n' :: fence))))))
      (fun s => if s = "[1]".data then some (.arr [.num 1]) else none) [] []
      = .error .parseFailure
    ∧ callGeminiFlat (some (mkGeminiData
        (fenceJson ++ ('\n' :: ("[1]".data ++ ('\n' :: fence))))))
      (fun s => if s = "[1]".data then some (.arr [.num 1]) else none)
      = .ok (.arr [.num 1]) :=
  ⟨rfl, rfl⟩

/-- C3 witness: fence stripping on a concrete backtick-free document. -/
theorem C3_witness :
    extractJson (fenceJson ++ ('\n' :: ("[2]".data ++ ('\n' :: fence))))
      = trimChars ("[2]".data)
    ∧ extractJson ("[2]".data) = "[2]".data :=
  ⟨(C3_amended ("[2]".data) (by decide) (fun _ => none) rfl (by decide)).1,
   (C3_amended ("[2]".data) (by decide) (fun _ => none) rfl (by decide)).2.2.1⟩
